import Mathlib

/-
Verification of the giveMemory.ai memory engine against its specification.

The Python source is shallowly embedded as follows.

* IEEE-754 float arithmetic is modelled by exact rationals (ℚ).  All the
  properties settled here concern filtering, ordering, mapping and state
  mutation logic; none depends on rounding of float operations.
* The external collaborators (Embedding Provider, Fact Oracle, Action
  Oracle, Summarizer) are function parameters: the code treats them as
  black boxes and so do we.
* faiss primitives used by vector_store.py are modelled from their
  documented behaviour: faiss.normalize_L2 divides each row by its L2
  norm when that norm is positive and leaves zero rows unchanged
  (fvec_renorm_L2), and IndexFlatIP.search performs an exact
  inner-product scan returning the k highest-scoring slots in descending
  score order (ties resolved in slot order).  The square root is
  Mathlib's Rat.sqrt, exact on every vector whose squared norm is a
  perfect square; every concrete vector appearing in a witness or
  counterexample below has that property.
* The real function exp(-0.05·d) in ContextMemory.search is represented
  by an abstract parameter rexp : ℤ → ℚ; theorems that need its shape
  assume it strictly decreasing and positive, and concrete instances use
  the strictly decreasing positive function d ↦ (1/2)^d.  The arguments
  never depend on the actual value of exp, only on d ↦ exp(-0.05·d)
  being a strictly decreasing positive function of the (integer) day
  count.
* Python dicts keyed by ints are association lists; SQLAlchemy rows are
  a list of MemoryRow records; datetimes are epoch seconds (ℤ).
  Columns that no settled claim mentions (category, session_id,
  created_at, updated_at) are omitted.  memory_metadata is modelled by
  its only structured content, the "connections" entry; a missing
  metadata dict and a metadata dict without the "connections" key are
  both `none` (the source treats them identically via `or {}` /
  membership tests).
-/

namespace GiveMemory

/-! ## Python-semantics helpers -/

/-- Python `opt or fallback` on an optional string: `None` and the empty
string are falsy. -/
def pyOrStr : Option String → String → String
  | some t, d => if t = "" then d else t
  | none, d => d

/-- Python truthiness of `decision.memory_id`: `None` and `0` are falsy. -/
def truthyId : Option Nat → Bool
  | some m => m != 0
  | none => false

/-- Python str.upper(), as the character-wise uppercase map (the same
function as String.toUpper, stated over the character list). -/
def pyUpper (s : String) : String := String.mk (s.data.map Char.toUpper)

instance {ε α : Type} [DecidableEq ε] [DecidableEq α] : DecidableEq (Except ε α) :=
  fun a b =>
    match a, b with
    | .ok x, .ok y =>
      if h : x = y then isTrue (by rw [h]) else isFalse (fun hc => by cases hc; exact h rfl)
    | .error x, .error y =>
      if h : x = y then isTrue (by rw [h]) else isFalse (fun hc => by cases hc; exact h rfl)
    | .ok _, .error _ => isFalse (fun hc => by cases hc)
    | .error _, .ok _ => isFalse (fun hc => by cases hc)

/-- Lookup in an int-keyed Python dict (association list). -/
def alookup {β : Type} : List (Nat × β) → Nat → Option β
  | [], _ => none
  | (k, v) :: t, x => if k = x then some v else alookup t x

/-- Python `del d[k]`. -/
def adel {β : Type} (l : List (Nat × β)) (k : Nat) : List (Nat × β) :=
  l.filter (fun p => p.1 != k)

/-- Python `d[k] = v`. -/
def aset {β : Type} (l : List (Nat × β)) (k : Nat) (v : β) : List (Nat × β) :=
  (k, v) :: adel l k

/-! ## Vectors and faiss primitives (vector_store.py) -/

abbrev Vec := List ℚ

/-- Inner product of two vectors. -/
def dot : Vec → Vec → ℚ
  | x :: xs, y :: ys => x * y + dot xs ys
  | _, _ => 0

/-- Squared L2 norm. -/
def l2normSq (v : Vec) : ℚ := (v.map (fun x => x * x)).sum

/-- Model of faiss.normalize_L2: divide by the L2 norm when it is
positive, leave a zero-norm row unchanged. -/
def normalizeL2 (v : Vec) : Vec :=
  let s := Rat.sqrt (l2normSq v)
  if s = 0 then v else v.map (fun x => x / s)

/-- Descending-score order on (slot, score) pairs, used to model the
order in which IndexFlatIP.search returns its results. -/
def scoreGE (a b : Nat × ℚ) : Prop := b.2 ≤ a.2

instance : DecidableRel scoreGE := fun a b => inferInstanceAs (Decidable (b.2 ≤ a.2))

instance : IsTotal (Nat × ℚ) scoreGE := ⟨fun a b => le_total b.2 a.2⟩

instance : IsTrans (Nat × ℚ) scoreGE := ⟨fun _ _ _ h1 h2 => le_trans h2 h1⟩

/-- FAISSVectorStore: physical slot vectors plus the bidirectional
memory_id ↔ slot maps. -/
structure FAISSVectorStore where
  dimension : Nat := 1536
  vectors : List Vec := []
  id_map : List (Nat × Nat) := []
  reverse_map : List (Nat × Nat) := []
deriving DecidableEq, Repr

namespace FAISSVectorStore

/-- FAISSVectorStore.add: no-op when the id is already mapped, otherwise
append the normalized vector as a fresh slot and record both mappings. -/
def add (st : FAISSVectorStore) (memory_id : Nat) (embedding : Vec) : FAISSVectorStore :=
  if (alookup st.id_map memory_id).isSome then st
  else
    let vector := normalizeL2 embedding
    let faiss_idx := st.vectors.length
    { st with
      vectors := st.vectors ++ [vector]
      id_map := aset st.id_map memory_id faiss_idx
      reverse_map := aset st.reverse_map faiss_idx memory_id }

/-- FAISSVectorStore.search: empty physical index yields []; otherwise
normalize the query, score every physical slot (IndexFlatIP scans all
slots, tombstoned or not), keep the top min(k, ntotal) slots in
descending score order, and map the surviving slots back to memory ids,
dropping slots absent from reverse_map. -/
def search (st : FAISSVectorStore) (query_embedding : Vec) (k : Nat) : List (Nat × ℚ) :=
  if st.vectors.length = 0 then []
  else
    let v := normalizeL2 query_embedding
    let k2 := min k st.vectors.length
    let scored := st.vectors.enum.map (fun p => (p.1, dot v p.2))
    let top := (List.insertionSort scoreGE scored).take k2
    top.filterMap (fun p => (alookup st.reverse_map p.1).map (fun mid => (mid, p.2)))

/-- FAISSVectorStore.remove: drop both directions of the mapping; the
physical slot vector is retained (tombstone). -/
def remove (st : FAISSVectorStore) (memory_id : Nat) : FAISSVectorStore :=
  match alookup st.id_map memory_id with
  | none => st
  | some faiss_idx =>
    { st with
      reverse_map := adel st.reverse_map faiss_idx
      id_map := adel st.id_map memory_id }

/-- FAISSVectorStore.count: number of mapped ids, not physical slots. -/
def count (st : FAISSVectorStore) : Nat := st.id_map.length

/-- Well-formedness of the bidirectional map: every reverse_map entry is
mirrored in id_map.  Holds for every store reachable by add/remove from
the empty store. -/
def WF (st : FAISSVectorStore) : Prop :=
  ∀ p ∈ st.reverse_map, alookup st.id_map p.2 = some p.1

instance (st : FAISSVectorStore) : Decidable st.WF :=
  inferInstanceAs (Decidable (∀ p ∈ st.reverse_map, alookup st.id_map p.2 = some p.1))

end FAISSVectorStore

/-! ## Relational store rows (db/models/memory.py) -/

/-- The "connections" entry of memory_metadata: the list of neighbor ids
and the id-keyed score dict. -/
structure ConnMeta where
  bubble_ids : List Nat := []
  scores : List (Nat × ℚ) := []
deriving DecidableEq, Repr

/-- A row of the memories table.  Field defaults mirror the column
defaults of the SQLAlchemy model. -/
structure MemoryRow where
  id : Nat
  conversation_id : Nat
  memory_text : String
  embedding : Option Vec := none
  is_episodic : Bool := false
  occurred_at : Option Int := none
  importance : ℚ := 1/2
  is_active : Bool := true
  connections : Option ConnMeta := none
deriving DecidableEq, Repr

/-- db.get(Memory, id). -/
def dbGet (rows : List MemoryRow) (memory_id : Nat) : Option MemoryRow :=
  rows.find? (fun r => r.id == memory_id)

/-- db.delete(memory): the row is removed from the table. -/
def dbDelete (rows : List MemoryRow) (memory_id : Nat) : List MemoryRow :=
  rows.filter (fun r => r.id != memory_id)

/-- Mutation of an attached ORM row: the row with the same id is
replaced by the mutated object. -/
def dbSetRow (rows : List MemoryRow) (r' : MemoryRow) : List MemoryRow :=
  rows.map (fun r => if r.id == r'.id then r' else r)

/-- The in-memory state one conversation's operations act on: the
memories table, the conversation's faiss store, and the next
autoincrement id. -/
structure LifecycleState where
  rows : List MemoryRow
  store : FAISSVectorStore
  nextId : Nat
deriving DecidableEq, Repr

/-! ## Tool classifier (tool_classifier.py) -/

/-- ToolDecision (dataclass). -/
structure ToolDecision where
  action : String
  memory_id : Option Nat
  text : Option String
deriving DecidableEq, Repr

/-- The JSON value found under the "action" key: a string, or something
with no .upper() method (a number, null, a list, ...). -/
inductive ActionField where
  | str (s : String)
  | nonString
deriving DecidableEq, Repr

/-- Shape of the Action Oracle's raw output, as seen by
_parse_decision after markdown stripping: not JSON at all, valid JSON
that is not an object (so result.get raises AttributeError), or a JSON
object with optional action / memory_id / text fields.  A "text" field
holding null is collapsed into an absent field: both produce a decision
whose text the update phase replaces by the candidate fact. -/
inductive OracleOutput where
  | notJson
  | jsonNonObj
  | jsonObj (action : Option ActionField) (memory_id : Option Nat) (text : Option String)
deriving DecidableEq, Repr

/-- An exception escaping _parse_decision: its except clause catches
only JSONDecodeError, KeyError and TypeError, so the AttributeError
raised on a non-object JSON value or a non-string action value
propagates. -/
inductive PyError where
  | attributeError
deriving DecidableEq, Repr

def validActions : List String := ["ADD", "UPDATE", "DELETE", "REPLACE", "NOOP"]

/-- Model of _parse_decision: non-JSON output falls back to an ADD carrying the
candidate fact; a JSON object yields action = uppercased "action" field
(default "NOOP" when absent), demoted to "ADD" when not one of the five
known actions, memory_id = the "memory_id" field, text = the "text"
field (default: the candidate fact). -/
def parseDecision (raw : OracleOutput) (candidate_fact : String) : Except PyError ToolDecision :=
  match raw with
  | .notJson => .ok ⟨"ADD", none, some candidate_fact⟩
  | .jsonNonObj => .error .attributeError
  | .jsonObj act mid txt =>
    match act with
    | some .nonString => .error .attributeError
    | some (.str s) =>
      let a := pyUpper s
      let a2 := if a ∈ validActions then a else "ADD"
      .ok ⟨a2, mid, some (txt.getD candidate_fact)⟩
    | none => .ok ⟨"NOOP", mid, some (txt.getD candidate_fact)⟩

/-! ## Update phase (add_updation_phase.py) -/

/-- The body of update_phase's per-fact loop, after the decision has
been obtained: dispatch on decision.action, guarded by Python
truthiness of decision.memory_id, with unresolvable targets silently
skipped. -/
def applyDecision (embed : String → Vec) (conversation_id : Nat) (fact : String)
    (decision : ToolDecision) (st : LifecycleState) : LifecycleState :=
  let fact_embedding := embed fact
  if decision.action = "ADD" then
    let text_to_store := pyOrStr decision.text fact
    let row : MemoryRow :=
      { id := st.nextId, conversation_id := conversation_id,
        memory_text := text_to_store, embedding := some fact_embedding }
    { rows := st.rows ++ [row],
      store := st.store.add row.id fact_embedding,
      nextId := st.nextId + 1 }
  else if decision.action = "UPDATE" ∧ truthyId decision.memory_id then
    match dbGet st.rows (decision.memory_id.getD 0) with
    | some memory =>
      let store1 := st.store.remove memory.id
      let memory' := { memory with
        memory_text := pyOrStr decision.text fact, embedding := some fact_embedding }
      { st with rows := dbSetRow st.rows memory',
                store := store1.add memory.id fact_embedding }
    | none => st
  else if decision.action = "DELETE" ∧ truthyId decision.memory_id then
    match dbGet st.rows (decision.memory_id.getD 0) with
    | some memory =>
      { st with store := st.store.remove memory.id,
                rows := dbDelete st.rows memory.id }
    | none => st
  else if decision.action = "REPLACE" ∧ truthyId decision.memory_id then
    let st1 :=
      match dbGet st.rows (decision.memory_id.getD 0) with
      | some old_memory =>
        { st with store := st.store.remove old_memory.id,
                  rows := dbDelete st.rows old_memory.id }
      | none => st
    let text_to_store := pyOrStr decision.text fact
    let row : MemoryRow :=
      { id := st1.nextId, conversation_id := conversation_id,
        memory_text := text_to_store, embedding := some fact_embedding }
    { rows := st1.rows ++ [row],
      store := st1.store.add row.id fact_embedding,
      nextId := st1.nextId + 1 }
  else st

/-- One iteration of update_phase for one candidate fact, given the
Action Oracle's raw output: parse, then apply. -/
def updateStep (embed : String → Vec) (conversation_id : Nat) (st : LifecycleState)
    (fact : String) (raw : OracleOutput) : Except PyError LifecycleState :=
  match parseDecision raw fact with
  | .error e => .error e
  | .ok d => .ok (applyDecision embed conversation_id fact d st)

/-! ## Similar-memory lookup (similar_memory_search.py) -/

/-- rebuild_index_from_db: re-insert every active row of the
conversation that has a non-empty embedding into a fresh store. -/
def rebuildIndexFromDb (rows : List MemoryRow) (conversation_id : Nat) : FAISSVectorStore :=
  rows.foldl
    (fun st r =>
      match r.embedding with
      | some v =>
        if r.conversation_id = conversation_id ∧ r.is_active = true ∧ v ≠ [] then
          st.add r.id v
        else st
      | none => st)
    {}

/-- search_similar_memories: faiss search (after a rebuild when the
store maps nothing), then a store lookup of the returned ids in
similarity order.  The lookup has no is_active filter. -/
def searchSimilarMemories (rows : List MemoryRow) (store : FAISSVectorStore)
    (conversation_id : Nat) (query_embeddings : Vec) (limit : Nat) : List MemoryRow :=
  let store := if store.count = 0 then rebuildIndexFromDb rows conversation_id else store
  let results := store.search query_embeddings limit
  let memory_ids := results.map (fun r => r.1)
  memory_ids.filterMap (fun mid => rows.find? (fun r => r.id == mid))

/-- update_phase over a list of candidate facts, the Action Oracle
being a function from the candidate and its similar-memory list to raw
output. -/
def updatePhase (embed : String → Vec) (conversation_id : Nat)
    (oracle : String → List MemoryRow → OracleOutput)
    (candidate_facts : List String) (st : LifecycleState) : Except PyError LifecycleState :=
  candidate_facts.foldlM
    (fun s fact =>
      let fact_embedding := embed fact
      let similar := searchSimilarMemories s.rows s.store conversation_id fact_embedding 10
      updateStep embed conversation_id s fact (oracle fact similar))
    st

/-! ## Connection discovery (connection_finder.py) -/

def CONNECTION_THRESHOLD : ℚ := 3/5

def MAX_CONNECTIONS : Nat := 5

/-- Python round(x, 3).  (Ties round half away from zero here, where
CPython rounds floats half to even; no settled property touches a tie.) -/
def round3 (q : ℚ) : ℚ := (round (q * 1000) : ℤ) / 1000

/-- A neighbor row with (bubbleId, score) appended to its connection
set. -/
def appendEdge (cm : MemoryRow) (bubbleId : Nat) (s : ℚ) : MemoryRow :=
  { cm with
    connections := some
      { bubble_ids := (cm.connections.getD {}).bubble_ids ++ [bubbleId],
        scores := (cm.connections.getD {}).scores ++ [(bubbleId, s)] } }

/-- The reverse-edge write of find_connections' loop body for one kept
neighbor. -/
def addReverseEdge (bubbleId : Nat) (rs : List MemoryRow) (conn : Nat × ℚ) : List MemoryRow :=
  match dbGet rs conn.1 with
  | some connected_mem =>
    if bubbleId ∈ (connected_mem.connections.getD {}).bubble_ids then rs
    else dbSetRow rs (appendEdge connected_mem bubbleId conn.2)
  | none => rs

/-- The connections find_connections keeps for a new bubble: the faiss
results minus the bubble itself and anything under the threshold, with
rounded scores, truncated to the top MAX_CONNECTIONS (the search output
is already in descending score order). -/
def keptConnections (st : LifecycleState) (new_bubble : MemoryRow) (v : Vec) :
    List (Nat × ℚ) :=
  (((st.store.search v (MAX_CONNECTIONS * 2)).filter
      (fun r => r.1 != new_bubble.id && decide (CONNECTION_THRESHOLD ≤ r.2))).map
    (fun r => (r.1, round3 r.2))).take MAX_CONNECTIONS

/-- The new bubble with its forward connection metadata written. -/
def bubbleWithConnections (new_bubble : MemoryRow) (top : List (Nat × ℚ)) : MemoryRow :=
  { new_bubble with
    connections := some { bubble_ids := top.map (fun c => c.1), scores := top } }

/-- find_connections: faiss search from the new bubble's embedding,
drop the bubble itself and scores under the threshold, keep the top
MAX_CONNECTIONS, write the forward edges into the bubble's metadata and
the reverse edges into each kept neighbor that resolves in the store. -/
def findConnections (st : LifecycleState) (new_bubble : MemoryRow) :
    LifecycleState × List Nat :=
  match new_bubble.embedding with
  | none => (st, [])
  | some v =>
    if v = [] then (st, [])
    else
      let results := st.store.search v (MAX_CONNECTIONS * 2)
      if results = [] then (st, [])
      else
        let top_connections := keptConnections st new_bubble v
        if top_connections = [] then (st, [])
        else
          let rows1 := dbSetRow st.rows (bubbleWithConnections new_bubble top_connections)
          let rows2 := top_connections.foldl (addReverseEdge new_bubble.id) rows1
          ({ st with rows := rows2 }, top_connections.map (fun c => c.1))

/-! ## Bubble creation (bubble_creator.py) -/

/-- The "importance" value of a bubble descriptor: a number, a numeric
string, or a string float() rejects. -/
inductive ImportanceField where
  | num (q : ℚ)
  | strNum (q : ℚ)
  | strBad
deriving DecidableEq, Repr

/-- Importance coercion: strings go through float(), falling back to
0.5; numbers pass through. -/
def coerceImportance : ImportanceField → ℚ
  | .num q => q
  | .strNum q => q
  | .strBad => 1/2

/-- The episodic row create_bubbles builds for one descriptor: active,
stamped now, carrying the embedding of its own text. -/
def bubbleRow (embed : String → Vec) (now : Int) (conversation_id : Nat)
    (st : LifecycleState) (text : String) (importance : ImportanceField) : MemoryRow :=
  { id := st.nextId, conversation_id := conversation_id, memory_text := text,
    embedding := some (embed text), is_episodic := true, occurred_at := some now,
    importance := coerceImportance importance, is_active := true, connections := none }

/-- The state after that row is added to the table and its embedding is
inserted into the index, before connection discovery runs. -/
def bubbleInserted (embed : String → Vec) (now : Int) (conversation_id : Nat)
    (st : LifecycleState) (text : String) (importance : ImportanceField) : LifecycleState :=
  { rows := st.rows ++ [bubbleRow embed now conversation_id st text importance],
    store := st.store.add st.nextId (embed text),
    nextId := st.nextId + 1 }

/-- One iteration of create_bubbles: skip empty text, else create an
active episodic row stamped now, embed its text, insert into the index,
and run connection discovery. -/
def createBubble (embed : String → Vec) (now : Int) (conversation_id : Nat)
    (st : LifecycleState) (text : String) (importance : ImportanceField) : LifecycleState :=
  if text = "" then st
  else
    (findConnections (bubbleInserted embed now conversation_id st text importance)
      (bubbleRow embed now conversation_id st text importance)).1

/-- create_bubbles over a batch of descriptors. -/
def createBubbles (embed : String → Vec) (now : Int) (conversation_id : Nat)
    (bubbles : List (String × ImportanceField)) (st : LifecycleState) : LifecycleState :=
  bubbles.foldl (fun s b => createBubble embed now conversation_id s b.1 b.2) st

/-! ## ContextMemory.update / delete / search scoring (memory.py) -/

inductive CMError where
  | notFound
deriving DecidableEq, Repr

namespace ContextMemory

/-- ContextMemory.update: NotFound on unknown id; otherwise set the new
text, recompute its embedding, and refresh the index by remove + add. -/
def update (embed : String → Vec) (st : LifecycleState) (memory_id : Nat)
    (text : String) : Except CMError LifecycleState :=
  match dbGet st.rows memory_id with
  | none => .error .notFound
  | some memory =>
    let new_embedding := embed text
    let memory' := { memory with memory_text := text, embedding := some new_embedding }
    let store1 := st.store.remove memory_id
    .ok { st with rows := dbSetRow st.rows memory',
                  store := store1.add memory_id new_embedding }

/-- ContextMemory.delete: NotFound on unknown id; otherwise flag the
row inactive (the row persists) and unmap it from the index. -/
def delete (st : LifecycleState) (memory_id : Nat) : Except CMError LifecycleState :=
  match dbGet st.rows memory_id with
  | none => .error .notFound
  | some memory =>
    .ok { st with rows := dbSetRow st.rows { memory with is_active := false },
                  store := st.store.remove memory_id }

end ContextMemory

/-- timedelta days: floor of the elapsed seconds over one day. -/
def daysSince (now occurred : Int) : Int := Int.fdiv (now - occurred) 86400

/-- Recency factor: decayed for an episodic row with occurred_at set,
1.0 otherwise. -/
def recencyOf (rexp : Int → ℚ) (now : Int) (m : MemoryRow) : ℚ :=
  if m.is_episodic then
    match m.occurred_at with
    | some occurred => rexp (daysSince now occurred)
    | none => 1
  else 1

/-- Importance factor with Python truthiness: an importance of 0 (like
an unset one) falls back to 0.5. -/
def importanceOf (m : MemoryRow) : ℚ :=
  if m.importance = 0 then 1/2 else m.importance

/-- final_score = similarity * importance * recency. -/
def finalScore (rexp : Int → ℚ) (now : Int) (similarity : ℚ) (m : MemoryRow) : ℚ :=
  similarity * importanceOf m * recencyOf rexp now m

/-- Descending order on the score of a (score, row) pair, modelling
scored.sort(reverse=True) by score. -/
def scoreFstGE (a b : ℚ × MemoryRow) : Prop := b.1 ≤ a.1

instance : DecidableRel scoreFstGE := fun a b => inferInstanceAs (Decidable (b.1 ≤ a.1))

instance : IsTotal (ℚ × MemoryRow) scoreFstGE := ⟨fun a b => le_total b.1 a.1⟩

instance : IsTrans (ℚ × MemoryRow) scoreFstGE := ⟨fun _ _ _ h1 h2 => le_trans h2 h1⟩

/-- The scoring stage of ContextMemory.search: fetch the active rows
among the ids faiss returned, score each as similarity × importance ×
recency (similarity defaulting to 0 for an id faiss did not score),
sort descending and truncate to the limit. -/
def scoreAndRank (rexp : Int → ℚ) (now : Int) (rows : List MemoryRow)
    (faiss_results : List (Nat × ℚ)) (limit : Nat) : List (ℚ × MemoryRow) :=
  let memory_ids := faiss_results.map (fun r => r.1)
  let memories := rows.filter (fun r => decide (r.id ∈ memory_ids) && r.is_active)
  let scored := memories.map
    (fun mem => (finalScore rexp now ((alookup faiss_results mem.id).getD 0) mem, mem))
  (List.insertionSort scoreFstGE scored).take limit

/-- ContextMemory.search up to the scored ranking (the connected-bubble
expansion and output formatting carry no settled property): rebuild the
index when it maps nothing, faiss-search with k = 2·limit, then score
and rank. -/
def cmSearch (rexp : Int → ℚ) (now : Int) (st : LifecycleState) (conversation_id : Nat)
    (query_embedding : Vec) (limit : Nat) : List (ℚ × MemoryRow) :=
  let store := if st.store.count = 0 then rebuildIndexFromDb st.rows conversation_id
               else st.store
  let faiss_results := store.search query_embedding (limit * 2)
  if faiss_results = [] then []
  else scoreAndRank rexp now st.rows faiss_results limit

/-! ## Extraction phase and add() (add_extraction_phase.py, memory.py) -/

/-- A chat turn handed to add(). -/
structure Turn where
  role : String
  content : String
deriving DecidableEq, Repr

/-- A persisted Message row (sender, text). -/
structure MessageRow where
  sender : String
  message_text : String
deriving DecidableEq, Repr

/-- Transcript-side state of one conversation: the Message rows in
timestamp order and the rolling summary row. -/
structure TranscriptState where
  transcript : List MessageRow
  summary : Option String
deriving DecidableEq, Repr

/-- The Fact Oracle's (recovered) output. -/
structure ExtractionResult where
  semantic : List String
  bubbles : List (String × ImportanceField)
deriving DecidableEq, Repr

/-- extraction_phase: fewer than two turns returns the empty result
without touching the store; otherwise the last user/assistant pair plus
summary and the last 10 transcript turns go to the Fact Oracle, and the
last pair (alone) is appended to the transcript.  The periodic
summary-regeneration side call mutates only the summary row through the
Summarizer collaborator and is outside every settled property. -/
def extractionPhase (oracle : List String → String → List String → ExtractionResult)
    (ts : TranscriptState) (messages : List Turn) : ExtractionResult × TranscriptState :=
  if messages.length < 2 then (⟨[], []⟩, ts)
  else
    let user_msg := (messages.drop (messages.length - 2)).headD ⟨"", ""⟩
    let assistant_msg := messages.getLastD ⟨"", ""⟩
    let latest_pair := [pyUpper user_msg.role ++ ": " ++ user_msg.content ++
      pyUpper assistant_msg.role ++ ": " ++ assistant_msg.content]
    let summary_text := ts.summary.getD ""
    let recent := ((ts.transcript.reverse.take 10).reverse).map
      (fun m => pyUpper m.sender ++ ": " ++ m.message_text)
    let result := oracle latest_pair summary_text recent
    let ts' := { ts with transcript := ts.transcript ++
      [⟨"user", user_msg.content⟩, ⟨"assistant", assistant_msg.content⟩] }
    (result, ts')

/-- What add() returns. -/
structure AddResult where
  semantic : List String
  bubbles : List String
deriving DecidableEq, Repr

/-- Combined per-conversation state. -/
structure AddState where
  ts : TranscriptState
  ls : LifecycleState
deriving DecidableEq, Repr

/-- ContextMemory.add: extraction phase, then (on a non-empty fact
list) the update phase, then (on a non-empty bubble list) bubble
creation; returns the extracted facts and bubble texts. -/
def cmAdd (factOracle : List String → String → List String → ExtractionResult)
    (actionOracle : String → List MemoryRow → OracleOutput)
    (embed : String → Vec) (now : Int) (conversation_id : Nat)
    (st : AddState) (messages : List Turn) : Except PyError (AddResult × AddState) := do
  let (extraction_result, ts') := extractionPhase factOracle st.ts messages
  let semantic_facts := extraction_result.semantic
  let bubbles_data := extraction_result.bubbles
  let ls1 ←
    if semantic_facts ≠ [] then
      updatePhase embed conversation_id actionOracle semantic_facts st.ls
    else pure st.ls
  let ls2 :=
    if bubbles_data ≠ [] then createBubbles embed now conversation_id bubbles_data ls1
    else ls1
  return (⟨semantic_facts, bubbles_data.map (fun b => b.1)⟩, ⟨ts', ls2⟩)

/-! ## Concrete instances used by witnesses and counterexamples -/

/-- A concrete stand-in embedding provider: one dimension, the text's
length. -/
def embedLen (s : String) : Vec := [(s.length : ℚ)]

/-- A concrete strictly decreasing positive stand-in for
d ↦ exp(-0.05·d). -/
def rexpHalf (d : Int) : ℚ := (1/2 : ℚ) ^ d

/-- A Fact Oracle returning nothing. -/
def emptyFactOracle : List String → String → List String → ExtractionResult :=
  fun _ _ _ => ⟨[], []⟩

/-- An Action Oracle whose raw reply is a fixed JSON object. -/
def constOracle (raw : OracleOutput) : String → List MemoryRow → OracleOutput :=
  fun _ _ => raw

/-- An empty conversation state. -/
def stEmpty : LifecycleState := { rows := [], store := {}, nextId := 1 }

/-- The state the resolver's ADD path produces: a fresh row holding the
given text with the embedding of the candidate fact, appended to the
memories table and inserted into the index under the fresh id. -/
def addOutcome (embed : String → Vec) (cid : Nat) (text fact : String)
    (st : LifecycleState) : LifecycleState :=
  { rows := st.rows ++
      [{ id := st.nextId, conversation_id := cid, memory_text := text,
         embedding := some (embed fact) }],
    store := st.store.add st.nextId (embed fact),
    nextId := st.nextId + 1 }

/-- The state the UPDATE paths produce: the target row mutated to the
given text and embedding vector, the index refreshed by remove + add of
that vector under the target's id. -/
def mutateOutcome (st : LifecycleState) (mem : MemoryRow) (text : String)
    (v : Vec) : LifecycleState :=
  { st with
    rows := dbSetRow st.rows { mem with memory_text := text, embedding := some v },
    store := (st.store.remove mem.id).add mem.id v }

/-- A store holding the single mapped vector [1,0] at id 1. -/
def stC10 : FAISSVectorStore := FAISSVectorStore.add {} 1 [1, 0]

/-- A store with two physical slots ([1,0] at id 1, [0,1] at id 2) of
which id 1 has been removed: one tombstone, one mapped id. -/
def stC2 : FAISSVectorStore :=
  ((FAISSVectorStore.add {} 1 [1, 0]).add 2 [0, 1]).remove 1

/-- An episodic row that occurred at epoch second 0. -/
def mOldC6 : MemoryRow :=
  { id := 1, conversation_id := 7, memory_text := "old",
    is_episodic := true, occurred_at := some 0 }

/-- An episodic row that occurred one hour later than mOldC6. -/
def mNewC6 : MemoryRow := { mOldC6 with id := 2, occurred_at := some 3600 }

/-- An episodic row that occurred two whole days later than mOldC6. -/
def mRecentC6 : MemoryRow := { mOldC6 with id := 3, occurred_at := some 172800 }

/-- A soft-deleted row whose id is still mapped in storeC7. -/
def rowC7 : MemoryRow :=
  { id := 1, conversation_id := 7, memory_text := "dead",
    embedding := some [1, 0], is_active := false }

/-- A store still mapping the soft-deleted rowC7. -/
def storeC7 : FAISSVectorStore := FAISSVectorStore.add {} 1 [1, 0]

/-- A fresh episodic bubble. -/
def bubbleC8 : MemoryRow :=
  { id := 1, conversation_id := 7, memory_text := "b",
    embedding := some [1, 0], is_episodic := true }

/-- A state whose index also maps id 99, which has no row in the
memories table (a stale index entry). -/
def stC8 : LifecycleState :=
  { rows := [bubbleC8],
    store := (FAISSVectorStore.add {} 1 [1, 0]).add 99 [1, 0],
    nextId := 2 }

/-- A resolvable neighbor row for the C8 witness. -/
def rowNC8 : MemoryRow :=
  { id := 2, conversation_id := 7, memory_text := "n",
    embedding := some [1, 0], is_episodic := true }

/-- A state where both the fresh bubble and its neighbor resolve in the
store and are mapped in the index. -/
def stWC8 : LifecycleState :=
  { rows := [bubbleC8, rowNC8],
    store := (FAISSVectorStore.add {} 1 [1, 0]).add 2 [1, 0],
    nextId := 3 }

/-- bubbleC8 after connection discovery wrote the one-sided edge to the
unresolvable neighbor 99. -/
def bubbleC8' : MemoryRow :=
  { bubbleC8 with connections := some { bubble_ids := [99], scores := [(99, 1)] } }

/-- An active stored row, present in the index. -/
def rowC4 : MemoryRow :=
  { id := 1, conversation_id := 7, memory_text := "fact", embedding := some [1, 0] }

/-- A state holding rowC4 in both table and index. -/
def stC4 : LifecycleState :=
  { rows := [rowC4], store := FAISSVectorStore.add {} 1 [1, 0], nextId := 2 }

/-- The row the ADD path creates for candidate "A" when the oracle
supplies the alternative text "Blah": the text is the oracle's, the
embedding is the candidate's. -/
def rowC3 : MemoryRow :=
  { id := 1, conversation_id := 7, memory_text := "Blah", embedding := some [1] }

/-- The state after that ADD. -/
def stC3 : LifecycleState :=
  { rows := [rowC3], store := FAISSVectorStore.add {} 1 [1], nextId := 2 }

/-- An empty transcript. -/
def tsEmpty : TranscriptState := { transcript := [], summary := none }

/-! ## Helper lemmas -/

theorem alookup_mem {β : Type} {l : List (Nat × β)} {k : Nat} {v : β}
    (h : alookup l k = some v) : (k, v) ∈ l := by
  induction l with
  | nil => simp [alookup] at h
  | cons p t ih =>
    obtain ⟨pk, pv⟩ := p
    simp only [alookup] at h
    by_cases hk : pk = k
    · rw [if_pos hk] at h
      cases h
      rw [← hk]
      exact List.mem_cons_self _ _
    · rw [if_neg hk] at h
      exact List.mem_cons_of_mem _ (ih h)

theorem mem_adel {β : Type} {l : List (Nat × β)} {k0 : Nat} {p : Nat × β}
    (h : p ∈ adel l k0) : p ∈ l ∧ p.1 ≠ k0 := by
  have h2 := List.mem_filter.mp h
  refine ⟨h2.1, ?_⟩
  simpa using h2.2

theorem alookup_adel_self {β : Type} (l : List (Nat × β)) (k : Nat) :
    alookup (adel l k) k = none := by
  induction l with
  | nil => rfl
  | cons p t ih =>
    obtain ⟨pk, pv⟩ := p
    by_cases hk : pk = k
    · simpa [adel, List.filter_cons, hk] using ih
    · simpa [adel, List.filter_cons, hk, alookup] using ih

/-- Removing an id always leaves it unmapped, whether or not it was
mapped before. -/
theorem remove_unmaps (st : FAISSVectorStore) (mid : Nat) :
    alookup (st.remove mid).id_map mid = none := by
  unfold FAISSVectorStore.remove
  split
  · next heq => exact heq
  · next s heq => simpa using alookup_adel_self st.id_map mid

theorem dbGet_eq_id {rows : List MemoryRow} {mid : Nat} {mem : MemoryRow}
    (h : dbGet rows mid = some mem) : mem.id = mid := by
  simpa using List.find?_some h

theorem dbGet_mem {rows : List MemoryRow} {mid : Nat} {mem : MemoryRow}
    (h : dbGet rows mid = some mem) : mem ∈ rows :=
  List.mem_of_find?_eq_some h

theorem pyOrStr_self (t : String) : pyOrStr (some t) t = t := by
  simp [pyOrStr]

/-! ## C9: idempotent add -/

/-- C9 (confirmed): for every vector index state, calling Add(id,
vector) when id is already mapped is a no-op — the state is literally
unchanged, so Count is unchanged, the stored vectors are unchanged, and
the existing mapping for id is unaltered. -/
theorem add_idempotent (st : FAISSVectorStore) (mid : Nat) (v : Vec) (s : Nat)
    (h : alookup st.id_map mid = some s) :
    st.add mid v = st ∧ (st.add mid v).count = st.count ∧
      (st.add mid v).vectors = st.vectors ∧
      alookup (st.add mid v).id_map mid = some s := by
  have hs : (alookup st.id_map mid).isSome := by rw [h]; rfl
  have he : st.add mid v = st := by simp [FAISSVectorStore.add, hs]
  exact ⟨he, by rw [he], by rw [he], by rw [he, h]⟩

/-- C9 witness: id 1 is mapped (to slot 0) in stC10, and re-adding it
with a different vector changes nothing. -/
theorem add_idempotent_witness :
    alookup stC10.id_map 1 = some 0 ∧
      (stC10.add 1 [5, 5] = stC10 ∧ (stC10.add 1 [5, 5]).count = stC10.count ∧
        (stC10.add 1 [5, 5]).vectors = stC10.vectors ∧
        alookup (stC10.add 1 [5, 5]).id_map 1 = some 0) :=
  ⟨by decide, add_idempotent stC10 1 [5, 5] 0 (by decide)⟩

/-! ## C10: zero-norm query guard -/

/-- C10 (code_bug): search has no zero-norm guard.  For the zero query
(squared norm 0) against an index holding one mapped vector, the
normalization leaves the query as the zero vector (so no division by
zero occurs inside normalize_L2), and search silently proceeds,
returning the mapped id with the meaningless score 0 instead of
detecting the precondition violation. -/
theorem zero_norm_query_unguarded :
    l2normSq [(0 : ℚ), 0] = 0 ∧
      FAISSVectorStore.search stC10 [0, 0] 1 = [(1, 0)] := by
  constructor
  · norm_num [l2normSq]
  · norm_num [stC10, FAISSVectorStore.search, FAISSVectorStore.add, normalizeL2, l2normSq,
      Rat.sqrt, dot, alookup, aset, adel, List.insertionSort, List.orderedInsert, scoreGE,
      List.filterMap_cons, List.filterMap_nil]

/-! ## Counterexample theorems -/

/-- C1 counterexample: an Action-Oracle reply that is a JSON object
with no "action" field (a missing field) is parsed as NOOP, so the
update phase stores nothing at all — the claim says it degrades to an
ADD storing the candidate text "F". -/
theorem noop_on_missing_action_field :
    updateStep embedLen 7 stEmpty "F" (.jsonObj none none none) = .ok stEmpty ∧
      stEmpty.rows = [] := by decide

/-- C2 counterexample: stC2 has one mapped id (so min(k, mappedCount) =
1 for k = 1), yet searching for the vector of the tombstoned slot
returns nothing: the top-k selection ran over all physical slots and
the single selected slot was the tombstone, which the id-filter then
dropped. -/
theorem tombstone_crowds_out_topk :
    stC2.count = 1 ∧ min 1 stC2.count = 1 ∧
      FAISSVectorStore.search stC2 [1, 0] 1 = [] := by
  refine ⟨?_, ?_, ?_⟩
  · norm_num [stC2, FAISSVectorStore.count, FAISSVectorStore.add,
      FAISSVectorStore.remove, normalizeL2, l2normSq, Rat.sqrt, alookup, aset, adel]
  · norm_num [stC2, FAISSVectorStore.count, FAISSVectorStore.add,
      FAISSVectorStore.remove, normalizeL2, l2normSq, Rat.sqrt, alookup, aset, adel]
  · norm_num [stC2, FAISSVectorStore.search, FAISSVectorStore.count, FAISSVectorStore.add,
      FAISSVectorStore.remove, normalizeL2, l2normSq, Rat.sqrt, dot, alookup, aset, adel,
      List.insertionSort, List.orderedInsert, scoreGE, List.filterMap_cons, List.filterMap_nil]

/-- C3 counterexample: an ADD decision whose oracle text "Blah" differs
from the candidate fact "A" stores text "Blah" with the embedding of
"A" ([1] under embedLen), so the stored embedding is not the embedding
of the stored text ([4]). -/
theorem embedding_not_synced_with_text :
    updateStep embedLen 7 stEmpty "A"
        (.jsonObj (some (.str "add")) none (some "Blah")) = .ok stC3 ∧
      rowC3 ∈ stC3.rows ∧ rowC3.embedding = some [1] ∧
      embedLen rowC3.memory_text = [4] := by
  refine ⟨?_, by norm_num [stC3, rowC3], by norm_num [rowC3],
    by norm_num [embedLen, rowC3, show "Blah".length = 4 from rfl]⟩
  norm_num [updateStep, parseDecision, validActions, applyDecision, stEmpty, stC3, rowC3,
    embedLen, pyOrStr, truthyId, FAISSVectorStore.add, normalizeL2, l2normSq,
    alookup, aset, adel, show pyUpper "add" = "ADD" from by decide,
    show "A".length = 1 from rfl, show Rat.sqrt 1 = 1 from rfl,
    (by decide : ¬("Blah" = ""))]

/-- C4 counterexample: the Decision Resolver's DELETE action on the
stored row id 1 leaves an empty memories table — db.delete removed the
row outright instead of flagging it inactive, so the underlying row
does not persist. -/
theorem delete_action_hard_deletes :
    updateStep embedLen 7 stC4 "G" (.jsonObj (some (.str "DELETE")) (some 1) none) =
      .ok { rows := [],
            store := { vectors := [[1, 0]], id_map := [], reverse_map := [] },
            nextId := 2 } ∧
      rowC4 ∈ stC4.rows := by
  refine ⟨?_, by norm_num [stC4, rowC4]⟩
  norm_num [updateStep, parseDecision, validActions, applyDecision, stC4, rowC4,
    embedLen, pyOrStr, truthyId, dbGet, dbDelete, List.find?_cons,
    FAISSVectorStore.add, FAISSVectorStore.remove, normalizeL2, l2normSq,
    alookup, aset, adel, show pyUpper "DELETE" = "DELETE" from by decide,
    show "G".length = 1 from rfl, show Rat.sqrt 1 = 1 from rfl,
    (by decide : ¬("DELETE" = "ADD")), (by decide : ¬("DELETE" = "UPDATE")),
    List.filter_cons, List.filter_nil]

/-- C5 counterexample: add() with a single turn returns the empty
extraction result and leaves the transcript store empty — the supplied
turn is not appended, because extraction_phase returns before the
transcript write. -/
theorem short_add_keeps_transcript_unchanged :
    cmAdd emptyFactOracle (constOracle .notJson) embedLen 0 7
        ⟨tsEmpty, stEmpty⟩ [⟨"user", "hi"⟩] =
      .ok (⟨[], []⟩, ⟨tsEmpty, stEmpty⟩) ∧
      tsEmpty.transcript = [] := by decide

/-- C6 counterexample: two episodic memories with equal similarity (1)
and equal importance whose occurred_at differ by one hour fall in the
same floored day count, so their final scores are equal and the ranking
lists the more recent one second, not strictly higher. -/
theorem equal_scores_within_same_day :
    mNewC6.occurred_at ≠ mOldC6.occurred_at ∧
      finalScore rexpHalf 90000 1 mOldC6 = finalScore rexpHalf 90000 1 mNewC6 ∧
      scoreAndRank rexpHalf 90000 [mOldC6, mNewC6] [(1, 1), (2, 1)] 10 =
        [(1/4, mOldC6), (1/4, mNewC6)] := by
  refine ⟨by norm_num [mOldC6, mNewC6], ?_, ?_⟩
  · norm_num [finalScore, importanceOf, recencyOf, rexpHalf, daysSince, mOldC6, mNewC6,
      show Int.fdiv 90000 86400 = 1 from by decide,
      show Int.fdiv (90000 - 3600) 86400 = 1 from by decide]
  · norm_num [scoreAndRank, finalScore, importanceOf, recencyOf, rexpHalf, daysSince,
      mOldC6, mNewC6, alookup, List.insertionSort, List.orderedInsert, scoreFstGE,
      show Int.fdiv 90000 86400 = 1 from by decide,
      show Int.fdiv (90000 - 3600) 86400 = 1 from by decide]

/-- C7 counterexample: the update phase's similar-memory lookup returns
the soft-deleted rowC7 (is_active = false) because its store query has
no is_active filter and the index still maps id 1. -/
theorem inactive_memory_returned_by_similar_search :
    rowC7.is_active = false ∧
      searchSimilarMemories [rowC7] storeC7 7 [1, 0] 10 = [rowC7] := by
  refine ⟨by norm_num [rowC7], ?_⟩
  norm_num [searchSimilarMemories, storeC7, rowC7, FAISSVectorStore.search,
    FAISSVectorStore.count, FAISSVectorStore.add, normalizeL2, l2normSq, Rat.sqrt, dot,
    alookup, aset, adel, List.insertionSort, List.orderedInsert, scoreGE,
    List.filterMap_cons, List.filterMap_nil, List.find?_cons]

/-- C8 counterexample: connection discovery accepts neighbor 99 (score
1 ≥ threshold) from a stale index entry, writes the forward edge into
the bubble's connection set, but finds no row 99 to write the reverse
edge into — an accepted edge with no symmetric counterpart. -/
theorem one_sided_connection_edge :
    findConnections stC8 bubbleC8 = ({ stC8 with rows := [bubbleC8'] }, [99]) ∧
      (99, 1) ∈ (bubbleC8'.connections.getD {}).scores ∧
      dbGet (dbSetRow stC8.rows bubbleC8') 99 = none := by
  refine ⟨?_, by norm_num [bubbleC8', bubbleC8], ?_⟩
  · norm_num [findConnections, stC8, bubbleC8, bubbleC8', CONNECTION_THRESHOLD,
      MAX_CONNECTIONS, round3, FAISSVectorStore.search, FAISSVectorStore.add,
      normalizeL2, l2normSq, Rat.sqrt, dot, alookup, aset, adel, List.insertionSort,
      List.orderedInsert, scoreGE, List.filterMap_cons, List.filterMap_nil,
      List.filter_cons, dbSetRow, dbGet, addReverseEdge, appendEdge, keptConnections,
      bubbleWithConnections, List.find?_cons, List.cons_ne_nil]
  · norm_num [dbGet, dbSetRow, stC8, bubbleC8, bubbleC8', List.find?_cons]

/-- Every result of search carries an id found in reverse_map. -/
theorem search_mem_reverse {st : FAISSVectorStore} {q : Vec} {k : Nat} {p : Nat × ℚ}
    (h : p ∈ st.search q k) : ∃ slot, alookup st.reverse_map slot = some p.1 := by
  unfold FAISSVectorStore.search at h
  by_cases h0 : st.vectors.length = 0
  · simp [h0] at h
  · rw [if_neg h0] at h
    obtain ⟨a, _, hfa⟩ := List.mem_filterMap.mp h
    obtain ⟨mid, hmid, hp⟩ := Option.map_eq_some'.mp hfa
    exact ⟨a.1, by rw [hmid, ← hp]⟩

/-! ## C5: short add() -/

/-- C5 (amended): add() with fewer than 2 turns returns the empty
extraction result and performs no mutation at all — in particular the
supplied turns are NOT appended to the transcript store, since
extraction_phase returns before its transcript write. -/
theorem short_add_is_total_noop
    (fo : List String → String → List String → ExtractionResult)
    (ao : String → List MemoryRow → OracleOutput) (embed : String → Vec)
    (now : Int) (cid : Nat) (st : AddState) (messages : List Turn)
    (h : messages.length < 2) :
    cmAdd fo ao embed now cid st messages = .ok (⟨[], []⟩, st) := by
  unfold cmAdd extractionPhase
  simp only [if_pos h]
  rfl

/-- C5 witness: one supplied turn, nothing stored, transcript intact. -/
theorem short_add_is_total_noop_witness :
    ([(⟨"user", "hi"⟩ : Turn)].length < 2) ∧
      cmAdd emptyFactOracle (constOracle .notJson) embedLen 0 7
          ⟨tsEmpty, stEmpty⟩ [⟨"user", "hi"⟩] =
        .ok (⟨[], []⟩, ⟨tsEmpty, stEmpty⟩) :=
  ⟨by decide,
   short_add_is_total_noop emptyFactOracle (constOracle .notJson) embedLen 0 7
     ⟨tsEmpty, stEmpty⟩ [⟨"user", "hi"⟩] (by decide)⟩

/-! ## C7: similar-memory lookup -/

/-- C7 (amended): the update phase's similar-memory lookup returns
exactly the stored rows whose ids the index search produced, in that
order, with no is_active filter: every returned memory is a stored row
whose id the index returned, active or not. -/
theorem similar_search_returns_indexed_rows (rows : List MemoryRow)
    (store : FAISSVectorStore) (cid : Nat) (q : Vec) (limit : Nat)
    (hc : store.count ≠ 0) :
    ∀ m ∈ searchSimilarMemories rows store cid q limit,
      m ∈ rows ∧ m.id ∈ (store.search q limit).map (fun r => r.1) := by
  intro m hm
  unfold searchSimilarMemories at hm
  rw [if_neg hc] at hm
  obtain ⟨mid, hmid, hfind⟩ := List.mem_filterMap.mp hm
  have hmem := List.mem_of_find?_eq_some hfind
  have hid : m.id = mid := by simpa using List.find?_some hfind
  exact ⟨hmem, by rw [hid]; exact hmid⟩

/-- C7 witness: the lookup on the concrete C7 state returns the
(inactive) stored row for the id the index produced. -/
theorem similar_search_returns_indexed_rows_witness :
    storeC7.count ≠ 0 ∧
      (rowC7 ∈ [rowC7] ∧
        rowC7.id ∈ (storeC7.search [1, 0] 10).map (fun r => r.1)) :=
  ⟨by norm_num [storeC7, FAISSVectorStore.count, FAISSVectorStore.add, alookup, aset, adel],
   similar_search_returns_indexed_rows [rowC7] storeC7 7 [1, 0] 10
     (by norm_num [storeC7, FAISSVectorStore.count, FAISSVectorStore.add, alookup, aset, adel])
     rowC7
     (by norm_num [searchSimilarMemories, storeC7, rowC7, FAISSVectorStore.search,
       FAISSVectorStore.count, FAISSVectorStore.add, normalizeL2, l2normSq, Rat.sqrt, dot,
       alookup, aset, adel, List.insertionSort, List.orderedInsert, scoreGE,
       List.filterMap_cons, List.filterMap_nil, List.find?_cons])⟩

/-! ## C4: delete semantics -/

/-- C4 (amended): delete(id) soft-deletes — NotFound on an unknown id,
otherwise the row persists with is_active = false and the id is
unmapped from the index.  The Decision Resolver's DELETE action instead
hard-deletes: the row is removed from the memories table outright
(db.delete), and the id is likewise unmapped from the index. -/
theorem delete_soft_vs_resolver_hard (st : LifecycleState) (mid : Nat) (mem : MemoryRow) :
    (dbGet st.rows mid = some mem →
      ContextMemory.delete st mid =
        .ok { st with rows := dbSetRow st.rows { mem with is_active := false },
                      store := st.store.remove mid } ∧
      { mem with is_active := false } ∈ dbSetRow st.rows { mem with is_active := false } ∧
      alookup (st.store.remove mid).id_map mid = none) ∧
    (dbGet st.rows mid = none → ContextMemory.delete st mid = .error .notFound) ∧
    (∀ (embed : String → Vec) (cid : Nat) (fact : String) (txt : Option String),
      mid ≠ 0 → dbGet st.rows mid = some mem →
      (applyDecision embed cid fact ⟨"DELETE", some mid, txt⟩ st).rows =
          dbDelete st.rows mid ∧
        (∀ r ∈ (applyDecision embed cid fact ⟨"DELETE", some mid, txt⟩ st).rows,
          r.id ≠ mid) ∧
        (applyDecision embed cid fact ⟨"DELETE", some mid, txt⟩ st).store =
          st.store.remove mid) := by
  refine ⟨?_, ?_, ?_⟩
  · intro h
    refine ⟨?_, ?_, remove_unmaps st.store mid⟩
    · unfold ContextMemory.delete
      rw [h]
    · have hmem := dbGet_mem h
      have himg := List.mem_map_of_mem
        (fun r => if r.id == ({ mem with is_active := false } : MemoryRow).id
          then ({ mem with is_active := false } : MemoryRow) else r) hmem
      simpa [dbSetRow] using himg
  · intro h
    unfold ContextMemory.delete
    rw [h]
  · intro embed cid fact txt hm h
    have hid : mem.id = mid := dbGet_eq_id h
    have happ : applyDecision embed cid fact ⟨"DELETE", some mid, txt⟩ st =
        { st with store := st.store.remove mem.id, rows := dbDelete st.rows mem.id } := by
      unfold applyDecision
      rw [if_neg (by decide : ¬("DELETE" = "ADD")),
        if_neg (by simp : ¬("DELETE" = "UPDATE" ∧ truthyId (some mid) = true)),
        if_pos (show "DELETE" = "DELETE" ∧ truthyId (some mid) = true from
          ⟨rfl, by simpa [truthyId] using hm⟩)]
      rw [show dbGet st.rows ((some mid).getD 0) = some mem from h]
    rw [happ, hid]
    refine ⟨rfl, ?_, rfl⟩
    intro r hr
    have := (List.mem_filter.mp hr).2
    simpa using this

/-- C4 witness: on the concrete state stC4, delete(1) keeps the row
(inactive) while the resolver's DELETE removes it. -/
theorem delete_soft_vs_resolver_hard_witness :
    (ContextMemory.delete stC4 1 =
        .ok { stC4 with rows := dbSetRow stC4.rows { rowC4 with is_active := false },
                        store := stC4.store.remove 1 } ∧
      { rowC4 with is_active := false } ∈
        dbSetRow stC4.rows { rowC4 with is_active := false } ∧
      alookup (stC4.store.remove 1).id_map 1 = none) ∧
    ((applyDecision embedLen 7 "G" ⟨"DELETE", some 1, none⟩ stC4).rows =
        dbDelete stC4.rows 1 ∧
      (∀ r ∈ (applyDecision embedLen 7 "G" ⟨"DELETE", some 1, none⟩ stC4).rows,
        r.id ≠ 1) ∧
      (applyDecision embedLen 7 "G" ⟨"DELETE", some 1, none⟩ stC4).store =
        stC4.store.remove 1) :=
  ⟨(delete_soft_vs_resolver_hard stC4 1 rowC4).1
     (by norm_num [dbGet, stC4, rowC4, List.find?_cons]),
   (delete_soft_vs_resolver_hard stC4 1 rowC4).2.2 embedLen 7 "G" none
     (by decide) (by norm_num [dbGet, stC4, rowC4, List.find?_cons])⟩

/-! ## C1: oracle fallback behaviour -/

/-- C1 (amended): per candidate fact, a non-JSON oracle reply degrades
to an ADD storing the original candidate text; a JSON object missing
the action field yields NOOP — no mutation, not an ADD; an unrecognized
action name degrades to ADD but stores the reply's text field when that
is a non-empty string (the candidate only otherwise); and UPDATE or
DELETE naming an unresolvable target is silently skipped (no mutation),
not degraded to ADD.  (A JSON reply that is not an object, or whose
action value is not a string, raises an uncaught AttributeError — see
parseDecision — so those shapes are excluded here.) -/
theorem oracle_fallback_characterization (embed : String → Vec) (cid : Nat)
    (st : LifecycleState) (fact : String) :
    (updateStep embed cid st fact .notJson = .ok (addOutcome embed cid fact fact st)) ∧
    (∀ mid txt, updateStep embed cid st fact (.jsonObj none mid txt) = .ok st) ∧
    (∀ s mid txt, pyUpper s ∉ validActions →
      updateStep embed cid st fact (.jsonObj (some (.str s)) mid txt) =
        .ok (addOutcome embed cid (pyOrStr (some (txt.getD fact)) fact) fact st)) ∧
    (∀ mid txt, dbGet st.rows mid = none →
      updateStep embed cid st fact (.jsonObj (some (.str "UPDATE")) (some mid) txt) =
        .ok st) ∧
    (∀ mid txt, dbGet st.rows mid = none →
      updateStep embed cid st fact (.jsonObj (some (.str "DELETE")) (some mid) txt) =
        .ok st) := by
  refine ⟨?_, ?_, ?_, ?_, ?_⟩
  · simp [updateStep, parseDecision, applyDecision, pyOrStr_self, addOutcome]
  · intro mid txt
    simp [updateStep, parseDecision, applyDecision,
      (by decide : ¬("NOOP" = "ADD")), (by decide : ¬("NOOP" = "UPDATE")),
      (by decide : ¬("NOOP" = "DELETE")), (by decide : ¬("NOOP" = "REPLACE"))]
  · intro s mid txt hs
    simp only [updateStep, parseDecision]
    rw [if_neg hs]
    simp [applyDecision, addOutcome]
  · intro mid txt h
    simp only [updateStep, parseDecision, (by decide : pyUpper "UPDATE" = "UPDATE")]
    rw [if_pos (by decide : "UPDATE" ∈ validActions)]
    by_cases hm : mid = 0
    · subst hm
      simp [applyDecision, truthyId,
        (by decide : ¬("UPDATE" = "ADD")), (by decide : ¬("UPDATE" = "DELETE")),
        (by decide : ¬("UPDATE" = "REPLACE"))]
    · simp [applyDecision, truthyId, hm, h,
        (by decide : ¬("UPDATE" = "ADD")), (by decide : ¬("UPDATE" = "DELETE")),
        (by decide : ¬("UPDATE" = "REPLACE"))]
  · intro mid txt h
    simp only [updateStep, parseDecision, (by decide : pyUpper "DELETE" = "DELETE")]
    rw [if_pos (by decide : "DELETE" ∈ validActions)]
    by_cases hm : mid = 0
    · subst hm
      simp [applyDecision, truthyId,
        (by decide : ¬("DELETE" = "ADD")), (by decide : ¬("DELETE" = "UPDATE")),
        (by decide : ¬("DELETE" = "REPLACE"))]
    · simp [applyDecision, truthyId, hm, h,
        (by decide : ¬("DELETE" = "ADD")), (by decide : ¬("DELETE" = "UPDATE")),
        (by decide : ¬("DELETE" = "REPLACE"))]

/-- C1 witness: the unknown action "merge" degrades to ADD, and UPDATE
aimed at the absent id 5 leaves the empty state untouched. -/
theorem oracle_fallback_characterization_witness :
    (pyUpper "merge" ∉ validActions) ∧
      updateStep embedLen 7 stEmpty "F" (.jsonObj (some (.str "merge")) none none) =
        .ok (addOutcome embedLen 7
          (pyOrStr (some ((none : Option String).getD "F")) "F") "F" stEmpty) ∧
      updateStep embedLen 7 stEmpty "F"
          (.jsonObj (some (.str "UPDATE")) (some 5) none) = .ok stEmpty :=
  ⟨by decide,
   (oracle_fallback_characterization embedLen 7 stEmpty "F").2.2.1 "merge" none none
     (by decide),
   (oracle_fallback_characterization embedLen 7 stEmpty "F").2.2.2.1 5 none
     (by decide)⟩

/-! ## dbSetRow / connection-discovery helper lemmas -/

theorem dbGet_dbSetRow_ne (rows : List MemoryRow) (r' : MemoryRow) (k : Nat)
    (h : k ≠ r'.id) : dbGet (dbSetRow rows r') k = dbGet rows k := by
  induction rows with
  | nil => rfl
  | cons a t ih =>
    by_cases ha : a.id = r'.id
    · simp only [dbGet, dbSetRow, List.map_cons] at *
      rw [List.find?_cons, List.find?_cons]
      have h1 : ((if a.id == r'.id then r' else a).id == k) = false := by
        simp [ha, Ne.symm h]
      have h2 : (a.id == k) = false := by simp [ha, Ne.symm h]
      rw [h1, h2]
      exact ih
    · simp only [dbGet, dbSetRow, List.map_cons] at *
      rw [List.find?_cons, List.find?_cons]
      have h1 : (if a.id == r'.id then r' else a) = a := by simp [ha]
      rw [h1]
      cases hk : (a.id == k) with
      | true => rfl
      | false => exact ih

theorem dbGet_dbSetRow_self (rows : List MemoryRow) (r' : MemoryRow) (k : Nat)
    (hid : r'.id = k) (h : (dbGet rows k).isSome) :
    dbGet (dbSetRow rows r') k = some r' := by
  induction rows with
  | nil => simp [dbGet] at h
  | cons a t ih =>
    by_cases ha : a.id = k
    · simp only [dbGet, dbSetRow, List.map_cons]
      rw [List.find?_cons]
      have h1 : (a.id == r'.id) = true := by simp [ha, hid]
      rw [if_pos h1]
      have h2 : (r'.id == k) = true := by simp [hid]
      rw [h2]
    · simp only [dbGet, dbSetRow, List.map_cons] at *
      rw [List.find?_cons] at h ⊢
      have h2 : (a.id == k) = false := by simp [ha]
      rw [h2] at h
      by_cases hb : a.id = r'.id
      · have h3 : (a.id == r'.id) = true := by simp [hb]
        rw [if_pos h3]
        have h4 : (r'.id == k) = true := by simp [hid]
        rw [h4]
      · have h3 : (a.id == r'.id) = false := by simp [hb]
        rw [if_neg (by simp [hb])]
        rw [h2]
        exact ih h

theorem mem_dbSetRow_of_ne {rows : List MemoryRow} {b : MemoryRow} (r' : MemoryRow)
    (hb : b ∈ rows) (h : b.id ≠ r'.id) : b ∈ dbSetRow rows r' := by
  have himg := List.mem_map_of_mem (fun r => if r.id == r'.id then r' else r) hb
  simpa [dbSetRow, h] using himg

theorem dbGet_addReverseEdge_ne (bid : Nat) (rows : List MemoryRow) (c : Nat × ℚ)
    (k : Nat) (h : k ≠ c.1) :
    dbGet (addReverseEdge bid rows c) k = dbGet rows k := by
  unfold addReverseEdge
  split
  · next cm hcm =>
    split_ifs with hmemb
    · rfl
    · have hcid : cm.id = c.1 := dbGet_eq_id hcm
      exact dbGet_dbSetRow_ne rows _ k (by simpa [appendEdge, hcid] using h)
  · rfl

theorem mem_addReverseEdge_of_ne (bid : Nat) {rows : List MemoryRow} {b : MemoryRow}
    (c : Nat × ℚ) (hb : b ∈ rows) (h : b.id ≠ c.1) :
    b ∈ addReverseEdge bid rows c := by
  unfold addReverseEdge
  split
  · next cm hcm =>
    split_ifs with hmemb
    · exact hb
    · have hcid : cm.id = c.1 := dbGet_eq_id hcm
      exact mem_dbSetRow_of_ne _ hb (by simpa [appendEdge, hcid] using h)
  · exact hb

theorem foldl_addReverseEdge_preserve (bid : Nat) (l : List (Nat × ℚ))
    (rows : List MemoryRow) (k : Nat) (h : ∀ c ∈ l, c.1 ≠ k) :
    dbGet (l.foldl (addReverseEdge bid) rows) k = dbGet rows k := by
  induction l generalizing rows with
  | nil => rfl
  | cons c t ih =>
    rw [List.foldl_cons,
      ih _ (fun c' hc' => h c' (List.mem_cons_of_mem _ hc')),
      dbGet_addReverseEdge_ne bid rows c k (Ne.symm (h c (List.mem_cons_self _ _)))]

theorem mem_foldl_addReverseEdge (bid : Nat) (l : List (Nat × ℚ))
    (rows : List MemoryRow) (b : MemoryRow) (hb : b ∈ rows)
    (h : ∀ c ∈ l, c.1 ≠ b.id) : b ∈ l.foldl (addReverseEdge bid) rows := by
  induction l generalizing rows with
  | nil => exact hb
  | cons c t ih =>
    rw [List.foldl_cons]
    exact ih _
      (mem_addReverseEdge_of_ne bid c hb (Ne.symm (h c (List.mem_cons_self _ _))))
      (fun c' hc' => h c' (List.mem_cons_of_mem _ hc'))

theorem mem_dbSetRow_self {rows : List MemoryRow} {a : MemoryRow} (r' : MemoryRow)
    (ha : a ∈ rows) (h : a.id = r'.id) : r' ∈ dbSetRow rows r' := by
  have himg := List.mem_map_of_mem (fun r => if r.id == r'.id then r' else r) ha
  simpa [dbSetRow, h] using himg

/-- Every pair kept by connection discovery's filter, map and take has
an id different from the bubble's own. -/
theorem keptConnections_ids_ne (st : LifecycleState) (b : MemoryRow) (v : Vec) :
    ∀ c ∈ keptConnections st b v, c.1 ≠ b.id := by
  intro c hc
  simp only [keptConnections] at hc
  have hc2 := List.mem_of_mem_take hc
  obtain ⟨r, hr, hrc⟩ := List.mem_map.mp hc2
  have hpred := (List.mem_filter.mp hr).2
  have hne : r.1 ≠ b.id := by
    simp only [Bool.and_eq_true, bne_iff_ne, decide_eq_true_eq] at hpred
    exact hpred.1
  rw [← hrc]
  exact hne

/-- Shape facts about connection discovery: the store is untouched, no
returned id is the bubble's own, and the bubble's id, text and
embedding survive (only its connection metadata may change). -/
theorem findConnections_spec (st : LifecycleState) (b : MemoryRow)
    (st' : LifecycleState) (ids : List Nat)
    (h : findConnections st b = (st', ids)) :
    st'.store = st.store ∧ (∀ nid ∈ ids, nid ≠ b.id) ∧
      (b ∈ st.rows → ∃ r ∈ st'.rows,
        r.id = b.id ∧ r.memory_text = b.memory_text ∧ r.embedding = b.embedding) := by
  simp only [findConnections] at h
  split at h
  · cases h
    exact ⟨rfl, by simp, fun hb => ⟨b, hb, rfl, rfl, rfl⟩⟩
  · split_ifs at h with h1 h2 h3
    · cases h
      exact ⟨rfl, by simp, fun hb => ⟨b, hb, rfl, rfl, rfl⟩⟩
    · cases h
      exact ⟨rfl, by simp, fun hb => ⟨b, hb, rfl, rfl, rfl⟩⟩
    · cases h
      exact ⟨rfl, by simp, fun hb => ⟨b, hb, rfl, rfl, rfl⟩⟩
    · cases h
      refine ⟨rfl, ?_, ?_⟩
      · intro nid hnid
        obtain ⟨c, hc, hcn⟩ := List.mem_map.mp hnid
        rw [← hcn]
        exact keptConnections_ids_ne _ _ _ c hc
      · intro hb
        refine ⟨_, mem_foldl_addReverseEdge b.id _ _ _
          (mem_dbSetRow_self _ hb rfl) (keptConnections_ids_ne _ _ _), rfl, rfl, rfl⟩

/-- Bubble creation embeds exactly the bubble's text: the store gains
the text's embedding under the fresh id, and the created row carries
that same embedding. -/
theorem createBubble_spec (embed : String → Vec) (now : Int) (cid : Nat)
    (st : LifecycleState) (text : String) (imp : ImportanceField)
    (htext : text ≠ "") :
    (createBubble embed now cid st text imp).store =
        st.store.add st.nextId (embed text) ∧
      ∃ r ∈ (createBubble embed now cid st text imp).rows,
        r.id = st.nextId ∧ r.memory_text = text ∧ r.embedding = some (embed text) := by
  unfold createBubble
  rw [if_neg htext]
  obtain ⟨h1, -, h3⟩ := findConnections_spec
    (bubbleInserted embed now cid st text imp) (bubbleRow embed now cid st text imp)
    (findConnections (bubbleInserted embed now cid st text imp)
      (bubbleRow embed now cid st text imp)).1
    (findConnections (bubbleInserted embed now cid st text imp)
      (bubbleRow embed now cid st text imp)).2 rfl
  refine ⟨by rw [h1]; rfl, ?_⟩
  obtain ⟨r, hr, hid, htxt2, hemb⟩ :=
    h3 (List.mem_append_right _ (List.mem_singleton_self _))
  exact ⟨r, hr, hid, htxt2, hemb⟩

/-! ## C3: embedding synchronisation -/

/-- C3 (amended): every mutating path stores an embedding alongside the
text and inserts exactly that embedding into the index, but the
resolver's ADD/UPDATE/REPLACE paths embed the CANDIDATE FACT, while the
stored text is the oracle's text field when that is non-empty — so the
stored embedding equals the embedding of the stored text only when the
oracle supplied no alternative text.  update(id, text) and bubble
creation always embed the stored text itself. -/
theorem embedding_follows_candidate_fact :
    (∀ (embed : String → Vec) (cid : Nat) (fact : String) (mid : Option Nat)
        (txt : Option String) (st : LifecycleState),
      applyDecision embed cid fact ⟨"ADD", mid, txt⟩ st =
        addOutcome embed cid (pyOrStr txt fact) fact st) ∧
    (∀ (embed : String → Vec) (cid : Nat) (fact : String) (mid : Nat)
        (txt : Option String) (st : LifecycleState) (mem : MemoryRow),
      mid ≠ 0 → dbGet st.rows mid = some mem →
      applyDecision embed cid fact ⟨"UPDATE", some mid, txt⟩ st =
        mutateOutcome st mem (pyOrStr txt fact) (embed fact)) ∧
    (∀ (embed : String → Vec) (cid : Nat) (fact : String) (mid : Nat)
        (txt : Option String) (st : LifecycleState) (mem : MemoryRow),
      mid ≠ 0 → dbGet st.rows mid = some mem →
      applyDecision embed cid fact ⟨"REPLACE", some mid, txt⟩ st =
        addOutcome embed cid (pyOrStr txt fact) fact
          { st with store := st.store.remove mid, rows := dbDelete st.rows mid }) ∧
    (∀ (embed : String → Vec) (st : LifecycleState) (mid : Nat) (text : String)
        (mem : MemoryRow), dbGet st.rows mid = some mem →
      ContextMemory.update embed st mid text =
        .ok (mutateOutcome st mem text (embed text))) ∧
    (∀ (embed : String → Vec) (now : Int) (cid : Nat) (st : LifecycleState)
        (text : String) (imp : ImportanceField), text ≠ "" →
      (createBubble embed now cid st text imp).store =
          st.store.add st.nextId (embed text) ∧
        ∃ r ∈ (createBubble embed now cid st text imp).rows,
          r.id = st.nextId ∧ r.memory_text = text ∧
            r.embedding = some (embed text)) := by
  refine ⟨?_, ?_, ?_, ?_, ?_⟩
  · intro embed cid fact mid txt st
    simp [applyDecision, addOutcome]
  · intro embed cid fact mid txt st mem hm h
    unfold applyDecision
    rw [if_neg (by decide : ¬("UPDATE" = "ADD"))]
    rw [if_pos (show "UPDATE" = "UPDATE" ∧ truthyId (some mid) = true from
      ⟨rfl, by simpa [truthyId] using hm⟩)]
    rw [show dbGet st.rows ((some mid).getD 0) = some mem from h]
    have hid : mem.id = mid := dbGet_eq_id h
    subst hid
    rfl
  · intro embed cid fact mid txt st mem hm h
    unfold applyDecision
    rw [if_neg (by decide : ¬("REPLACE" = "ADD"))]
    rw [if_neg (by simp : ¬("REPLACE" = "UPDATE" ∧ truthyId (some mid) = true))]
    rw [if_neg (by simp : ¬("REPLACE" = "DELETE" ∧ truthyId (some mid) = true))]
    rw [if_pos (show "REPLACE" = "REPLACE" ∧ truthyId (some mid) = true from
      ⟨rfl, by simpa [truthyId] using hm⟩)]
    rw [show dbGet st.rows ((some mid).getD 0) = some mem from h]
    have hid : mem.id = mid := dbGet_eq_id h
    subst hid
    rfl
  · intro embed st mid text mem h
    unfold ContextMemory.update
    rw [show dbGet st.rows mid = some mem from h]
    have hid : mem.id = mid := dbGet_eq_id h
    subst hid
    rfl
  · intro embed now cid st text imp htext
    exact createBubble_spec embed now cid st text imp htext

/-- C3 witness: the UPDATE and update(id, text) paths on the concrete
state stC4, plus the conditional sync fact for an ADD with no oracle
text. -/
theorem embedding_follows_candidate_fact_witness :
    (applyDecision embedLen 7 "ok" ⟨"UPDATE", some 1, none⟩ stC4 =
        mutateOutcome stC4 rowC4 (pyOrStr none "ok") (embedLen "ok")) ∧
      (ContextMemory.update embedLen stC4 1 "new" =
        .ok (mutateOutcome stC4 rowC4 "new" (embedLen "new"))) ∧
      (applyDecision embedLen 7 "ok" ⟨"ADD", none, none⟩ stEmpty =
        addOutcome embedLen 7 (pyOrStr none "ok") "ok" stEmpty) :=
  ⟨(embedding_follows_candidate_fact).2.1 embedLen 7 "ok" 1 none stC4 rowC4
     (by decide) (by norm_num [dbGet, stC4, rowC4, List.find?_cons]),
   (embedding_follows_candidate_fact).2.2.2.1 embedLen stC4 1 "new" rowC4
     (by norm_num [dbGet, stC4, rowC4, List.find?_cons]),
   (embedding_follows_candidate_fact).1 embedLen 7 "ok" none none stEmpty⟩

theorem remove_cases (st : FAISSVectorStore) (mid : Nat) :
    (alookup st.id_map mid = none ∧ st.remove mid = st) ∨
      ∃ s0, alookup st.id_map mid = some s0 ∧
        (st.remove mid).reverse_map = adel st.reverse_map s0 := by
  unfold FAISSVectorStore.remove
  split
  · next heq => exact .inl ⟨heq, rfl⟩
  · next s0 heq => exact .inr ⟨s0, heq, rfl⟩

/-! ## C2: search over mapped slots -/

/-- C2 (amended): search on an empty physical index returns []; every
returned id is currently mapped; results come in descending score
order; at most min(k, physical slot count) results are returned — but
because the top-k selection scans ALL physical slots (tombstones
included) and only then filters to mapped ids, fewer than
min(k, mappedCount) results can come back; and after Remove(id) a
search never returns id. -/
theorem search_mapped_sorted_tombstone (st : FAISSVectorStore) (hwf : st.WF) :
    (st.vectors = [] → ∀ q k, st.search q k = []) ∧
      (∀ q k, ∀ p ∈ st.search q k, (alookup st.id_map p.1).isSome) ∧
      (∀ q k, (st.search q k).Pairwise scoreGE) ∧
      (∀ q k, (st.search q k).length ≤ min k st.vectors.length) ∧
      (∀ mid q k, ∀ p ∈ (st.remove mid).search q k, p.1 ≠ mid) := by
  refine ⟨?_, ?_, ?_, ?_, ?_⟩
  · intro hv q k
    unfold FAISSVectorStore.search
    rw [if_pos (by rw [hv]; rfl)]
  · intro q k p hp
    obtain ⟨slot, hslot⟩ := search_mem_reverse hp
    have h2 := hwf (slot, p.1) (alookup_mem hslot)
    dsimp only at h2
    rw [h2]
    rfl
  · intro q k
    unfold FAISSVectorStore.search
    split
    · simp
    · dsimp only
      exact List.Pairwise.filterMap
        (fun p : Nat × ℚ => (alookup st.reverse_map p.1).map (fun mid => (mid, p.2)))
        (fun a a' hr b hb b' hb' => by
          rw [Option.mem_def] at hb hb'
          obtain ⟨m1, hm1, hb1⟩ := Option.map_eq_some'.mp hb
          obtain ⟨m2, hm2, hb2⟩ := Option.map_eq_some'.mp hb'
          rw [← hb1, ← hb2]
          exact hr)
        (List.Pairwise.sublist (List.take_sublist _ _)
          (List.sorted_insertionSort scoreGE _))
  · intro q k
    unfold FAISSVectorStore.search
    split
    · simp
    · dsimp only
      refine le_trans (List.length_filterMap_le _ _) ?_
      rw [List.length_take]
      exact min_le_left _ _
  · intro mid q k p hp hpm
    obtain ⟨slot, hslot⟩ := search_mem_reverse hp
    rw [hpm] at hslot
    rcases remove_cases st mid with ⟨hnone, heq⟩ | ⟨s0, hs0, heq⟩
    · rw [heq] at hslot
      have h3 := hwf (slot, mid) (alookup_mem hslot)
      dsimp only at h3
      rw [hnone] at h3
      cases h3
    · rw [heq] at hslot
      obtain ⟨hmem2, hne⟩ := mem_adel (alookup_mem hslot)
      have h3 := hwf (slot, mid) hmem2
      dsimp only at h3
      rw [hs0] at h3
      cases h3
      exact hne rfl

/-- C2 witness: stC2 (one tombstone, one mapped id) is well-formed and
enjoys all five search properties. -/
theorem search_mapped_sorted_tombstone_witness :
    stC2.WF ∧
      ((stC2.vectors = [] → ∀ q k, stC2.search q k = []) ∧
        (∀ q k, ∀ p ∈ stC2.search q k, (alookup stC2.id_map p.1).isSome) ∧
        (∀ q k, (stC2.search q k).Pairwise scoreGE) ∧
        (∀ q k, (stC2.search q k).length ≤ min k stC2.vectors.length) ∧
        (∀ mid q k, ∀ p ∈ (stC2.remove mid).search q k, p.1 ≠ mid)) :=
  ⟨by decide, search_mapped_sorted_tombstone stC2 (by decide)⟩

theorem rexpHalf_anti : ∀ d1 d2 : Int, d1 < d2 → rexpHalf d2 < rexpHalf d1 := by
  intro d1 d2 h
  unfold rexpHalf
  exact zpow_lt_zpow_right_of_lt_one₀ (by norm_num) (by norm_num) h

/-! ## C6: search scoring -/

/-- C6 (amended): every ranked candidate is active and its score equals
similarity × importance × recency, where importance falls back to 0.5
when unset or zero and recency applies the decay to the FLOORED number
of elapsed days for an episodic memory with occurred_at set (1.0
otherwise); the ranked list is in descending score order; and of two
episodic memories with equal similarity and importance, the more recent
scores strictly higher exactly when its floored day count is strictly
smaller — one-hour-apart timestamps inside the same floored day tie. -/
theorem search_scoring_characterization :
    (∀ (rexp : Int → ℚ) (now : Int) (rows : List MemoryRow)
        (fr : List (Nat × ℚ)) (limit : Nat),
      ∀ p ∈ scoreAndRank rexp now rows fr limit,
        p.2.is_active = true ∧
          p.1 = finalScore rexp now ((alookup fr p.2.id).getD 0) p.2) ∧
      (∀ (rexp : Int → ℚ) (now : Int) (rows : List MemoryRow)
          (fr : List (Nat × ℚ)) (limit : Nat),
        (scoreAndRank rexp now rows fr limit).Pairwise scoreFstGE) ∧
      (∀ rexp : Int → ℚ, (∀ d1 d2 : Int, d1 < d2 → rexp d2 < rexp d1) →
        ∀ (now : Int) (sim : ℚ) (m1 m2 : MemoryRow) (o1 o2 : Int),
          0 < sim → 0 < importanceOf m1 →
          m1.is_episodic = true → m2.is_episodic = true →
          m1.occurred_at = some o1 → m2.occurred_at = some o2 →
          importanceOf m1 = importanceOf m2 →
          daysSince now o1 < daysSince now o2 →
          finalScore rexp now sim m2 < finalScore rexp now sim m1) := by
  refine ⟨?_, ?_, ?_⟩
  · intro rexp now rows fr limit p hp
    simp only [scoreAndRank] at hp
    have hp2 := List.mem_of_mem_take hp
    have hp3 := (List.perm_insertionSort scoreFstGE _).mem_iff.mp hp2
    obtain ⟨mem, hmem, hpe⟩ := List.mem_map.mp hp3
    have hact := (List.mem_filter.mp hmem).2
    cases hpe
    refine ⟨?_, rfl⟩
    simp only [Bool.and_eq_true] at hact
    exact hact.2
  · intro rexp now rows fr limit
    simp only [scoreAndRank]
    exact List.Pairwise.sublist (List.take_sublist _ _)
      (List.sorted_insertionSort scoreFstGE _)
  · intro rexp hanti now sim m1 m2 o1 o2 hsim himp he1 he2 ho1 ho2 hieq hd
    have hr1 : recencyOf rexp now m1 = rexp (daysSince now o1) := by
      simp [recencyOf, he1, ho1]
    have hr2 : recencyOf rexp now m2 = rexp (daysSince now o2) := by
      simp [recencyOf, he2, ho2]
    unfold finalScore
    rw [hr1, hr2, ← hieq, mul_assoc, mul_assoc]
    exact mul_lt_mul_of_pos_left
      (mul_lt_mul_of_pos_left (hanti _ _ hd) himp) hsim

/-- C6 witness: the characterization applied to the concrete ranked
pair, and the strict-ranking conclusion for two memories two whole days
apart. -/
theorem search_scoring_characterization_witness :
    (((1/4 : ℚ), mOldC6).2.is_active = true ∧
      ((1/4 : ℚ), mOldC6).1 = finalScore rexpHalf 90000
        ((alookup [(1, 1), (2, 1)] ((1/4 : ℚ), mOldC6).2.id).getD 0)
        ((1/4 : ℚ), mOldC6).2) ∧
      finalScore rexpHalf 259200 1 mOldC6 < finalScore rexpHalf 259200 1 mRecentC6 :=
  ⟨(search_scoring_characterization).1 rexpHalf 90000 [mOldC6, mNewC6]
     [(1, 1), (2, 1)] 10 (1/4, mOldC6)
     (by norm_num [scoreAndRank, finalScore, importanceOf, recencyOf, rexpHalf, daysSince,
       mOldC6, mNewC6, alookup, List.insertionSort, List.orderedInsert, scoreFstGE,
       show Int.fdiv 90000 86400 = 1 from by decide,
       show Int.fdiv (90000 - 3600) 86400 = 1 from by decide]),
   (search_scoring_characterization).2.2 rexpHalf rexpHalf_anti 259200 1
     mRecentC6 mOldC6 172800 0 (by norm_num)
     (by norm_num [importanceOf, mRecentC6, mOldC6]) rfl rfl rfl rfl
     (by norm_num [importanceOf, mRecentC6, mOldC6])
     (by decide)⟩

/-- The reverse-edge fold writes (bid, score) into every processed
neighbor that resolves and does not already reference bid. -/
theorem foldl_addReverseEdge_writes (bid : Nat) (l : List (Nat × ℚ))
    (rows : List MemoryRow) (hnd : (l.map Prod.fst).Nodup)
    (h : ∀ c ∈ l, ∃ cm, dbGet rows c.1 = some cm ∧
        bid ∉ (cm.connections.getD {}).bubble_ids) :
    ∀ c ∈ l, ∃ cm2, dbGet (l.foldl (addReverseEdge bid) rows) c.1 = some cm2 ∧
      (bid, c.2) ∈ (cm2.connections.getD {}).scores := by
  induction l generalizing rows with
  | nil => intro c hc; cases hc
  | cons c0 t ih =>
    have hnd' : (t.map Prod.fst).Nodup := by
      rw [List.map_cons] at hnd
      exact hnd.of_cons
    have hhead_notin : c0.1 ∉ t.map Prod.fst := by
      rw [List.map_cons] at hnd
      exact (List.nodup_cons.mp hnd).1
    intro c hc
    rw [List.foldl_cons]
    rcases List.mem_cons.mp hc with rfl | hct
    · obtain ⟨cm, hcm, hbid⟩ := h c (List.mem_cons_self _ _)
      have hstep : dbGet (addReverseEdge bid rows c) c.1 =
          some (appendEdge cm bid c.2) := by
        have hcid : cm.id = c.1 := dbGet_eq_id hcm
        unfold addReverseEdge
        rw [hcm]
        dsimp only
        rw [if_neg hbid]
        exact dbGet_dbSetRow_self _ _ _
          (show (appendEdge cm bid c.2).id = c.1 from hcid) (by rw [hcm]; rfl)
      have hpres : dbGet (t.foldl (addReverseEdge bid) (addReverseEdge bid rows c)) c.1 =
          dbGet (addReverseEdge bid rows c) c.1 :=
        foldl_addReverseEdge_preserve bid t _ c.1 (fun c' hc' he =>
          hhead_notin (he ▸ List.mem_map_of_mem Prod.fst hc'))
      refine ⟨_, by rw [hpres, hstep], ?_⟩
      simp [appendEdge]
    · have htrans : ∀ c' ∈ t, ∃ cm, dbGet (addReverseEdge bid rows c0) c'.1 = some cm ∧
          bid ∉ (cm.connections.getD {}).bubble_ids := by
        intro c' hc'
        have hne : c'.1 ≠ c0.1 := fun he =>
          hhead_notin (he ▸ List.mem_map_of_mem Prod.fst hc')
        rw [dbGet_addReverseEdge_ne bid rows c0 c'.1 hne]
        exact h c' (List.mem_cons_of_mem _ hc')
      exact ih _ hnd' htrans c hct

/-! ## C8: connection symmetry -/

/-- C8 (amended): when the fresh bubble is an attached row and every id
that connection discovery accepted resolves in the store without
already referencing the bubble, each accepted edge is written
symmetrically: the bubble's connection set holds (neighbor, s) and the
neighbor's holds (bubble, s) with the identical rounded score s.  (An
accepted neighbor id that does NOT resolve gets only the one-sided
forward edge — see the counterexample.) -/
theorem connection_symmetry_for_resolvable (st : LifecycleState) (b : MemoryRow)
    (st' : LifecycleState) (ids : List Nat)
    (hfc : findConnections st b = (st', ids))
    (hb : dbGet st.rows b.id = some b)
    (hres : ∀ nid ∈ ids, ∃ cm, dbGet st.rows nid = some cm ∧
        b.id ∉ (cm.connections.getD {}).bubble_ids)
    (hnd : ids.Nodup) :
    ∀ nid ∈ ids, ∃ s b2 cm2,
      dbGet st'.rows b.id = some b2 ∧
        (nid, s) ∈ (b2.connections.getD {}).scores ∧
        dbGet st'.rows nid = some cm2 ∧
        (b.id, s) ∈ (cm2.connections.getD {}).scores := by
  simp only [findConnections] at hfc
  split at hfc
  · cases hfc
    intro nid hnid
    exact absurd hnid (List.not_mem_nil _)
  · rename_i v hv
    split_ifs at hfc with h1 h2 h3
    · cases hfc
      intro nid hnid
      exact absurd hnid (List.not_mem_nil _)
    · cases hfc
      intro nid hnid
      exact absurd hnid (List.not_mem_nil _)
    · cases hfc
      intro nid hnid
      exact absurd hnid (List.not_mem_nil _)
    · cases hfc
      intro nid hnid
      obtain ⟨conn, hconn, hcn⟩ := List.mem_map.mp hnid
      have hTne := keptConnections_ids_ne st b v
      have hfwd1 : dbGet (dbSetRow st.rows
          (bubbleWithConnections b (keptConnections st b v))) b.id =
          some (bubbleWithConnections b (keptConnections st b v)) :=
        dbGet_dbSetRow_self _ _ _ rfl (by rw [hb]; rfl)
      have hfwd : dbGet ((keptConnections st b v).foldl (addReverseEdge b.id)
          (dbSetRow st.rows (bubbleWithConnections b (keptConnections st b v)))) b.id =
          some (bubbleWithConnections b (keptConnections st b v)) := by
        rw [foldl_addReverseEdge_preserve b.id _ _ b.id hTne]
        exact hfwd1
      have hwr := foldl_addReverseEdge_writes b.id (keptConnections st b v)
        (dbSetRow st.rows (bubbleWithConnections b (keptConnections st b v)))
        hnd
        (fun c hcmem => by
          rw [dbGet_dbSetRow_ne st.rows _ c.1
            (show c.1 ≠ (bubbleWithConnections b (keptConnections st b v)).id from
              hTne c hcmem)]
          exact hres c.1 (List.mem_map_of_mem _ hcmem))
        conn hconn
      obtain ⟨cm2, hcm2, hcm2s⟩ := hwr
      refine ⟨conn.2, bubbleWithConnections b (keptConnections st b v), cm2,
        hfwd, ?_, ?_, hcm2s⟩
      · rw [← hcn]
        simpa [bubbleWithConnections] using hconn
      · rw [← hcn]
        exact hcm2

/-- C8 witness: on stWC8 both sides of the accepted edge (bubble 1 ↔
neighbor 2) are written with the same score. -/
theorem connection_symmetry_for_resolvable_witness :
    ∃ s b2 cm2,
      dbGet (findConnections stWC8 bubbleC8).1.rows bubbleC8.id = some b2 ∧
        (2, s) ∈ (b2.connections.getD {}).scores ∧
        dbGet (findConnections stWC8 bubbleC8).1.rows 2 = some cm2 ∧
        (bubbleC8.id, s) ∈ (cm2.connections.getD {}).scores :=
  connection_symmetry_for_resolvable stWC8 bubbleC8
    (findConnections stWC8 bubbleC8).1 (findConnections stWC8 bubbleC8).2 rfl
    (by norm_num [dbGet, stWC8, bubbleC8, rowNC8, List.find?_cons])
    (by norm_num [findConnections, stWC8, bubbleC8, rowNC8, CONNECTION_THRESHOLD,
      MAX_CONNECTIONS, round3, FAISSVectorStore.search, FAISSVectorStore.add,
      normalizeL2, l2normSq, Rat.sqrt, dot, alookup, aset, adel, List.insertionSort,
      List.orderedInsert, scoreGE, List.filterMap_cons, List.filterMap_nil,
      List.filter_cons, dbSetRow, dbGet, addReverseEdge, appendEdge, keptConnections,
      bubbleWithConnections, List.find?_cons, List.cons_ne_nil,
      show ((1 : Nat) == 2) = false from rfl, show ((2 : Nat) == 2) = true from rfl,
      show ((1 : Nat) == 1) = true from rfl, show ((2 : Nat) == 1) = false from rfl])
    (by norm_num [findConnections, stWC8, bubbleC8, rowNC8, CONNECTION_THRESHOLD,
      MAX_CONNECTIONS, round3, FAISSVectorStore.search, FAISSVectorStore.add,
      normalizeL2, l2normSq, Rat.sqrt, dot, alookup, aset, adel, List.insertionSort,
      List.orderedInsert, scoreGE, List.filterMap_cons, List.filterMap_nil,
      List.filter_cons, dbSetRow, dbGet, addReverseEdge, appendEdge, keptConnections,
      bubbleWithConnections, List.find?_cons, List.cons_ne_nil,
      show ((1 : Nat) == 2) = false from rfl, show ((2 : Nat) == 2) = true from rfl,
      show ((1 : Nat) == 1) = true from rfl, show ((2 : Nat) == 1) = false from rfl])
    2
    (by norm_num [findConnections, stWC8, bubbleC8, rowNC8, CONNECTION_THRESHOLD,
      MAX_CONNECTIONS, round3, FAISSVectorStore.search, FAISSVectorStore.add,
      normalizeL2, l2normSq, Rat.sqrt, dot, alookup, aset, adel, List.insertionSort,
      List.orderedInsert, scoreGE, List.filterMap_cons, List.filterMap_nil,
      List.filter_cons, dbSetRow, dbGet, addReverseEdge, appendEdge, keptConnections,
      bubbleWithConnections, List.find?_cons, List.cons_ne_nil,
      show ((1 : Nat) == 2) = false from rfl, show ((2 : Nat) == 2) = true from rfl,
      show ((1 : Nat) == 1) = true from rfl, show ((2 : Nat) == 1) = false from rfl])

end GiveMemory
